import Mathlib

/-!
Shallow embedding of the netmancer polling daemon (`a.py`) and the
CIDR conversion utility (`netmancer_cli/utils/cidr_converter.py`),
together with theorems settling the specification claims about the
change-detection, reconciliation and persistence subsystems.

Python dicts keyed by `NodeName` are embedded as association lists with
insertion-order/replacement semantics; the SQLite `NetworkDetails` table
is a list of rows; external commands are parameters giving the command
outcome (`none` for a `CalledProcessError`); Python exceptions become
`Except` errors.
-/

namespace Netmancer

/-- Exceptions that can be raised by the embedded Python code. -/
inductive PyErr where
  | recursionError
  | unboundLocalError
  | valueError
  | indexError
deriving Repr, DecidableEq

/-!
String primitives.  The embedding uses structurally recursive character
list implementations of Python's `str.split` (single-character
separator), `str.strip`, substring containment, integer parsing,
lexicographic comparison and `str.capitalize`, so that every definition
evaluates inside the kernel.
-/

/-- Python `str.split(sep)` for a one-character separator: splitting the
empty string yields `[""]`, and adjacent separators yield empty parts. -/
def splitOnCharAux (c : Char) : List Char → List Char → List (List Char)
  | [], acc => [acc.reverse]
  | x :: xs, acc =>
    if x = c then acc.reverse :: splitOnCharAux c xs []
    else splitOnCharAux c xs (x :: acc)

/-- Splits a string at every occurrence of the character `c`. -/
def splitOnChar (c : Char) (s : String) : List String :=
  (splitOnCharAux c s.data []).map (fun l => ⟨l⟩)

/-- Python `str.strip()`: removes leading and trailing whitespace. -/
def strip (s : String) : String :=
  ⟨(((s.data.dropWhile Char.isWhitespace).reverse.dropWhile
      Char.isWhitespace).reverse)⟩

/-- Tests whether the first list is an initial segment of the second. -/
def listStartsWith : List Char → List Char → Bool
  | [], _ => true
  | _ :: _, [] => false
  | p :: ps, c :: cs => p == c && listStartsWith ps cs

/-- Tests whether `pat` occurs as a contiguous sublist. -/
def listHasSub (pat : List Char) : List Char → Bool
  | [] => listStartsWith pat []
  | c :: cs => listStartsWith pat (c :: cs) || listHasSub pat cs

/-- Python `pat in s`: substring containment. -/
def strContains (s pat : String) : Bool := listHasSub pat.data s.data

/-- Accumulates the value of a decimal digit list. -/
def digitsToNat : List Char → Nat → Nat
  | [], acc => acc
  | c :: cs, acc => digitsToNat cs (acc * 10 + (c.toNat - 48))

/-- Python `int(s)` for a string required to be all ASCII decimal digits
(`s.isascii() and s.isdigit()`): `none` when the check fails. -/
def strToNat? (s : String) : Option Nat :=
  if s.data ≠ [] ∧ s.data.all Char.isDigit then some (digitsToNat s.data 0)
  else none

/-- Code-point lexicographic strict order on character lists, as used by
Python string comparison. -/
def charListLt : List Char → List Char → Bool
  | [], [] => false
  | [], _ :: _ => true
  | _ :: _, [] => false
  | x :: xs, y :: ys =>
    if x.toNat < y.toNat then true
    else if y.toNat < x.toNat then false
    else charListLt xs ys

/-- Inserts a string into a sorted list, keeping it sorted ascending. -/
def insertSorted (x : String) : List String → List String
  | [] => [x]
  | y :: ys =>
    if charListLt y.data x.data then y :: insertSorted x ys
    else x :: y :: ys

/-- Python `sorted(set(l))`: drops duplicates, then sorts ascending. -/
def dedupSort (l : List String) : List String :=
  l.eraseDups.foldr insertSorted []

/-- Python `str.capitalize()`: first character upper-cased, the rest
lower-cased. -/
def pyCapitalize (s : String) : String :=
  match s.data with
  | [] => ""
  | c :: cs => ⟨c.toUpper :: cs.map Char.toLower⟩

/-- Joins string parts with a separator (Python `sep.join(parts)`). -/
def joinWith (sep : String) : List String → String
  | [] => ""
  | [x] => x
  | x :: y :: ys => x ++ sep ++ joinWith sep (y :: ys)

example : splitOnChar ':' "eth0:ethernet:connected:Wired" =
    ["eth0", "ethernet", "connected", "Wired"] := by decide
example : splitOnChar ':' "" = [""] := by decide
example : strip "  a b\n" = "a b" := by decide
example : strContains "IP4.ADDRESS[1]:10.0.0.5/24" "IP4.ADDRESS" = true := by
  decide
example : strContains "IP4.GATEWAY: x" "IP4.ADDRESS" = false := by decide
example : strToNat? "24" = some 24 := by decide
example : strToNat? "2a" = none := by decide
example : dedupSort ["8.8.8.8", "1.1.1.1", "8.8.8.8"] =
    ["1.1.1.1", "8.8.8.8"] := by decide
example : pyCapitalize "wifi" = "Wifi" := by decide

/-- One network node record as built by `get_network_info` in `a.py`:
the dict with keys NodeName, NodeType, IP, CIDR, Netmask, Gateway, NameServers. -/
structure Node where
  NodeName : String
  NodeType : String
  IP : String
  CIDR : String
  Netmask : String
  Gateway : String
  NameServers : List String
deriving Repr, DecidableEq

/-- The top-level snapshot dict `\x7b"NetworkNodes": [...]\x7d`. -/
structure NetworkData where
  NetworkNodes : List Node
deriving Repr, DecidableEq

/-- Python dict insertion: replaces the value at an existing key in place,
otherwise appends the binding at the end (insertion order preserved). -/
def dictInsert (d : List (String × Node)) (k : String) (v : Node) :
    List (String × Node) :=
  if d.any (fun p => p.1 == k) then
    d.map (fun p => if p.1 == k then (k, v) else p)
  else d ++ [(k, v)]

/-- The dict comprehension `\x7bnode["NodeName"]: node for node in nodes\x7d`
used by `has_network_data_changed` (later duplicate names overwrite earlier
ones, keeping the first insertion position). -/
def nodesByName (nodes : List Node) : List (String × Node) :=
  nodes.foldl (fun d n => dictInsert d n.NodeName n) []

/-- Python `dict.get`: the value bound to `k`, if any. -/
def dictGet (d : List (String × Node)) (k : String) : Option Node :=
  (d.find? (fun p => p.1 == k)).map Prod.snd

/-- Embeds `has_network_data_changed(new_data, existing_data)` from `a.py`:
true if some new node is absent from the old snapshot or has a different IP,
or if some old node name is absent from the new snapshot. -/
def has_network_data_changed (new_data existing_data : NetworkData) : Bool :=
  let existing_nodes := nodesByName existing_data.NetworkNodes
  let new_nodes := nodesByName new_data.NetworkNodes
  (new_nodes.any (fun p =>
    match dictGet existing_nodes p.1 with
    | none => true
    | some e => e.IP != p.2.IP))
  || existing_nodes.any (fun p => !(new_nodes.any (fun q => q.1 == p.1)))

/-- The in-place update applied by `prune_removed_nodes` to a disconnected
node: IP, CIDR, Netmask, Gateway become "NA" and NameServers becomes ["NA"]. -/
def markDisconnected (n : Node) : Node :=
  { n with IP := "NA", CIDR := "NA", Netmask := "NA", Gateway := "NA",
           NameServers := ["NA"] }

/-- Embeds `prune_removed_nodes(new_data, existing_data)` from `a.py` as a
function returning the mutated `new_data`: every node of `existing_data`
whose name is not among the (original) new node names is marked
disconnected and appended, in order, to the new node list. -/
def prune_removed_nodes (new_data existing_data : NetworkData) : NetworkData :=
  let new_node_names := new_data.NetworkNodes.map Node.NodeName
  ⟨new_data.NetworkNodes ++
    (existing_data.NetworkNodes.filter
      (fun n => !(new_node_names.contains n.NodeName))).map markDisconnected⟩

/-- A sample connected ethernet node used by concrete witnesses. -/
def ethNode : Node :=
  ⟨"eth0", "Ethernet", "10.0.0.5", "/24", "255.255.255.0", "10.0.0.1",
   ["1.1.1.1", "8.8.8.8"]⟩

/-- A sample wifi node used by concrete witnesses. -/
def wlanNode : Node :=
  ⟨"wlan0", "Wifi", "192.168.1.10", "/24", "255.255.255.0", "192.168.1.1",
   ["8.8.8.8"]⟩

example : has_network_data_changed ⟨[ethNode]⟩ ⟨[ethNode]⟩ = false := by decide

example : has_network_data_changed ⟨[ethNode]⟩ ⟨[ethNode, wlanNode]⟩ = true := by
  decide

example :
    prune_removed_nodes ⟨[ethNode]⟩ ⟨[ethNode, wlanNode]⟩ =
      ⟨[ethNode, markDisconnected wlanNode]⟩ := by decide

/-!
Netmask/CIDR codec.  `cidr_to_netmask` in `a.py` delegates to
`ipaddress.IPv4Network("0.0.0.0/" + cidr).netmask`, catching `ValueError`.
The relevant stdlib behaviour is embedded below: the netmask argument is
first tried as a decimal numeral (range 0..32), then as a dotted-quad
netmask, then as a dotted-quad hostmask; any failure raises a
`ValueError` subclass, which `cidr_to_netmask` converts to "".
-/

/-- Counts trailing zero bits of a positive number, with `fuel` bits
available; models `(~n & (n-1)).bit_length()` in the stdlib helper
counting right-hand zero bits. -/
def trailingZeroBits : Nat → Nat → Nat
  | 0, _ => 0
  | fuel + 1, n => if n % 2 = 1 then 0 else 1 + trailingZeroBits fuel (n / 2)

/-- The 32-bit mask whose top `p` bits are one: the stdlib computes it as
all-ones xor (all-ones shifted right by `p`). -/
def maskOfLen (p : Nat) : Nat := 2 ^ 32 - 2 ^ (32 - p)

/-- Parsing the netmask argument as a decimal numeral in range 0..32
(stdlib requires an all-ASCII-digits string, then bounds-checks). -/
def lenFromNumeral (s : String) : Option Nat :=
  match strToNat? s with
  | some n => if n ≤ 32 then some n else none
  | none => none

/-- Parsing one dotted-quad octet: nonempty, decimal digits only, at most
three characters, no leading zero, value at most 255. -/
def parse_octet (s : String) : Option Nat :=
  match s.data with
  | [] => none
  | c :: cs =>
    if ¬ (c :: cs).all Char.isDigit then none
    else if (c :: cs).length > 3 then none
    else if cs ≠ [] ∧ c = '0' then none
    else
      let v := digitsToNat (c :: cs) 0
      if v > 255 then none else some v

/-- Parsing a dotted-quad IPv4 address string into its 32-bit value
(big-endian byte order). -/
def ipIntFromString (s : String) : Option Nat :=
  let octets := splitOnChar '.' s
  if octets.length ≠ 4 then none
  else match octets.map parse_octet with
    | [some a, some b, some c, some d] =>
        some (((a * 256 + b) * 256 + c) * 256 + d)
    | _ => none

/-- Recognising a 32-bit value as a netmask: `p` = 32 minus the number of
trailing zero bits, provided all remaining high bits are one. -/
def lenFromIpInt (n : Nat) : Option Nat :=
  let tz := if n = 0 then 32 else trailingZeroBits 32 n
  let p := 32 - tz
  if n / 2 ^ tz = 2 ^ p - 1 then some p else none

/-- The stdlib netmask-argument parser: decimal numeral first, then
dotted-quad netmask, then dotted-quad hostmask; yields the mask length. -/
def make_netmask (s : String) : Option Nat :=
  match lenFromNumeral s with
  | some p => some p
  | none =>
    match ipIntFromString s with
    | none => none
    | some ip =>
      match lenFromIpInt ip with
      | some p => some p
      | none => lenFromIpInt (ip ^^^ (2 ^ 32 - 1))

/-- Rendering of a 32-bit value as a dotted-decimal IPv4 string
(`str(IPv4Address(n))`): four base-10 octets joined by dots. -/
def ipv4Repr (n : Nat) : String :=
  joinWith "."
    ([n / 2 ^ 24 % 256, n / 2 ^ 16 % 256, n / 2 ^ 8 % 256, n % 256].map Nat.repr)

/-- Embeds `cidr_to_netmask(cidr)` from `a.py`: the full address string
`"0.0.0.0/" + cidr` must split on "/" into exactly two parts, then the
netmask part is parsed as above; every parse failure raises a
`ValueError` subclass which the function catches, returning "". -/
def cidr_to_netmask (cidr : String) : String :=
  if (splitOnChar '/' ("0.0.0.0/" ++ cidr)).length ≠ 2 then ""
  else match make_netmask cidr with
    | some p => ipv4Repr (maskOfLen p)
    | none => ""

/-- Embeds `CIDRConverter.cidr_to_subnet_mask` from
`netmancer_cli/utils/cidr_converter.py`: range-checks its integer input
(raising `ValueError` otherwise), shifts a 32-bit all-ones value to keep
the top `cidr` bits, and joins the four octets with dots. -/
def cidr_to_subnet_mask (cidr : Nat) : Except String String :=
  if cidr > 32 then Except.error "CIDR must be an integer between 0 and 32"
  else
    let mask := (0xffffffff >>> (32 - cidr)) <<< (32 - cidr)
    Except.ok (joinWith "."
      ([(mask >>> 24) &&& 0xff, (mask >>> 16) &&& 0xff,
        (mask >>> 8) &&& 0xff, mask &&& 0xff].map Nat.repr))

example : cidr_to_netmask "24" = "255.255.255.0" := by decide
example : cidr_to_netmask "0" = "0.0.0.0" := by decide
example : cidr_to_netmask "32" = "255.255.255.255" := by decide
example : cidr_to_netmask "33" = "" := by decide
example : cidr_to_netmask "abc" = "" := by decide
example : cidr_to_netmask "255.255.255.0" = "255.255.255.0" := by decide
example : cidr_to_netmask "0.0.0.255" = "255.255.255.0" := by decide
example : cidr_to_netmask "255.0.255.0" = "" := by decide
example : cidr_to_netmask "24/1" = "" := by decide
example : cidr_to_subnet_mask 16 = Except.ok "255.255.0.0" := rfl

/-!
Network snapshot collector.  External commands are abstracted by their
outcome: `none` models a `subprocess.CalledProcessError`, `some out` the
raw stdout.  The per-device detail command is a function from the device
name to such an outcome.  Python exceptions raised by tuple unpacking
(`ValueError`) and list indexing (`IndexError`) inside `get_network_info`
are uncaught in the source and therefore modelled with `Except`.
-/

/-- Embeds `run_command(command)` from `a.py`: stripped stdout on
success, the empty string after a caught `CalledProcessError`. -/
def run_command (outcome : Option String) : String :=
  match outcome with
  | none => ""
  | some out => strip out

/-- One iteration of the inner line loop of `get_network_info`: updates
the node dict from one line of the per-device command output. -/
def apply_ip_line (node : Node) (line : String) : Except PyErr Node :=
  if strContains line "IP4.ADDRESS" then
    match splitOnChar ':' line with
    | _ :: second :: _ =>
      let ip_cidr := strip second
      if strContains ip_cidr "/" then
        match splitOnChar '/' ip_cidr with
        | [ip, cidr] =>
          Except.ok { node with IP := ip, CIDR := "/" ++ cidr,
                                Netmask := cidr_to_netmask cidr }
        | _ => Except.error PyErr.valueError
      else Except.ok node
    | _ => Except.error PyErr.indexError
  else if strContains line "IP4.GATEWAY" then
    match splitOnChar ':' line with
    | _ :: second :: _ => Except.ok { node with Gateway := strip second }
    | _ => Except.error PyErr.indexError
  else if strContains line "IP4.DNS" then
    match splitOnChar ':' line with
    | _ :: second :: _ =>
      let dns := strip second
      if dns ≠ "" then
        Except.ok { node with NameServers := node.NameServers ++ [dns] }
      else Except.ok node
    | _ => Except.error PyErr.indexError
  else Except.ok node

/-- One iteration of the device loop of `get_network_info`: skips blank
lines, unpacks the colon-separated device tuple (raising `ValueError` on
a wrong field count), filters on state and type, queries and parses the
per-device details, and appends the finished node. -/
def process_device (ipQuery : String → Option String) (acc : List Node)
    (device_info : String) : Except PyErr (List Node) :=
  if device_info = "" then Except.ok acc
  else
    match splitOnChar ':' device_info with
    | [device, conn_type, state, _connection_name] =>
      if state ≠ "connected" ∨ conn_type ∉ ["wifi", "ethernet"] then
        Except.ok acc
      else
        let node0 : Node :=
          ⟨device, pyCapitalize conn_type, "NA", "NA", "NA", "NA", []⟩
        let ip_result := run_command (ipQuery device)
        if ip_result = "" then Except.ok acc
        else do
          let node ← (splitOnChar '\n' ip_result).foldlM apply_ip_line node0
          Except.ok (acc ++
            [{ node with NameServers := dedupSort node.NameServers }])
    | _ => Except.error PyErr.valueError

/-- Embeds `get_network_info()` from `a.py`, parameterised by the outcome
of the interface-listing command and of the per-device detail command. -/
def get_network_info (listing : Option String)
    (ipQuery : String → Option String) : Except PyErr NetworkData := do
  let result := run_command listing
  if result = "" then Except.ok ⟨[]⟩
  else do
    let nodes ← (splitOnChar '\n' result).foldlM (process_device ipQuery) []
    Except.ok ⟨nodes⟩

example :
    get_network_info (some "eth0:ethernet:connected:Wired\nlo:loopback:unmanaged:")
      (fun _ => some "IP4.ADDRESS[1]:10.0.0.5/24\nIP4.GATEWAY:10.0.0.1\nIP4.DNS[1]:8.8.8.8\nIP4.DNS[2]:1.1.1.1\nIP4.DNS[3]:8.8.8.8") =
    Except.ok ⟨[⟨"eth0", "Ethernet", "10.0.0.5", "/24", "255.255.255.0",
                 "10.0.0.1", ["1.1.1.1", "8.8.8.8"]⟩]⟩ := rfl

/-!
Relational store.  The SQLite `NetworkDetails` table is embedded as a
list of rows; `SELECT IP ... WHERE NetworkType = ?` with `fetchone`
returns the IP of the first matching row, and `UPDATE ... WHERE
NetworkType = ?` rewrites the five value columns of every matching row.
The connection argument is `none` when `sqlite3.connect` raises: in the
source the `except sqlite3.Error` clause catches that, but the `finally`
block then reads the never-assigned local `conn`, raising an
`UnboundLocalError` that escapes the function.
-/

/-- One pre-provisioned row of the `NetworkDetails` table. -/
structure DBRow where
  NetworkType : String
  IP : String
  Subnetmask : String
  Gateway : String
  PrimaryDNS : String
  SecondaryDNS : String
deriving Repr, DecidableEq

/-- The `NetworkDetails` table state. -/
abbrev DB := List DBRow

/-- Sentinel mapping applied to a node's IP before the row comparison. -/
def mappedIP (n : Node) : String := if n.IP = "NA" then "" else n.IP

/-- Sentinel mapping applied to a node's netmask. -/
def mappedNetmask (n : Node) : String :=
  if n.Netmask = "NA" then "" else n.Netmask

/-- Sentinel mapping applied to a node's gateway. -/
def mappedGateway (n : Node) : String :=
  if n.Gateway = "NA" then "" else n.Gateway

/-- First name server, or the empty string when absent or sentinel. -/
def mappedPrimaryDNS (n : Node) : String :=
  match n.NameServers with
  | [] => ""
  | d :: _ => if d = "NA" then "" else d

/-- Second name server, or the empty string when absent or sentinel. -/
def mappedSecondaryDNS (n : Node) : String :=
  match n.NameServers with
  | _ :: d :: _ => if d = "NA" then "" else d
  | _ => ""

/-- The `SELECT IP FROM NetworkDetails WHERE NetworkType = ?` query with
`fetchone`: IP column of the first matching row, if any. -/
def sqlSelectIP (db : DB) (key : String) : Option String :=
  (db.find? (fun r => r.NetworkType == key)).map DBRow.IP

/-- The five-column assignment performed by the `UPDATE` statement for
node `n` on one row (the key column is untouched). -/
def updatedRow (n : Node) (r : DBRow) : DBRow :=
  { r with IP := mappedIP n, Subnetmask := mappedNetmask n,
           Gateway := mappedGateway n, PrimaryDNS := mappedPrimaryDNS n,
           SecondaryDNS := mappedSecondaryDNS n }

/-- The `UPDATE ... WHERE NetworkType = ?` statement: rewrites every row
whose key matches the node's name; it never inserts or deletes rows. -/
def sqlUpdateRow (db : DB) (n : Node) : DB :=
  db.map (fun r => if r.NetworkType == n.NodeName then updatedRow n r else r)

/-- The row-freshness test of `update_sysconf_db`:
`row is None or row[0] != ip`. -/
def needs_update (db : DB) (n : Node) : Bool :=
  match sqlSelectIP db n.NodeName with
  | none => true
  | some v => v != mappedIP n

/-- The node loop of `update_sysconf_db`: selects each node's stored IP,
issues the `UPDATE` when it is absent or different, and accumulates the
`db_updated` flag. -/
def update_loop : DB → List Node → Bool → DB × Bool
  | db, [], upd => (db, upd)
  | db, n :: rest, upd =>
    if needs_update db n then update_loop (sqlUpdateRow db n) rest true
    else update_loop db rest upd

/-- Embeds `update_sysconf_db(network_data)` from `a.py`.  `conn` is the
table reached by `sqlite3.connect`, or `none` when connecting raises.
On success the loop runs and the transaction is committed only when
`db_updated` is set (otherwise the connection closes without committing
and the table keeps its prior state); on a connect failure the `finally`
block's read of the unassigned local `conn` raises `UnboundLocalError`. -/
def update_sysconf_db (conn : Option DB) (network_data : NetworkData) :
    Except PyErr (DB × Bool) :=
  match conn with
  | none => Except.error PyErr.unboundLocalError
  | some db =>
    let res := update_loop db network_data.NetworkNodes false
    Except.ok ((if res.2 then res.1 else db), res.2)

/-- The per-row outcome of the whole persistence loop, described against
the initial table state: the first node whose name matches the row key
decides, via its freshness test, whether the row is rewritten. -/
def expectedRow (db : DB) (nodes : List Node) (r : DBRow) : DBRow :=
  ((nodes.find? (fun n => n.NodeName == r.NetworkType)).map
    (fun n => if needs_update db n then updatedRow n r else r)).getD r

/-- A stored row with a stale IP, used by concrete witnesses. -/
def staleRow : DBRow := ⟨"eth0", "10.0.0.9", "", "", "", ""⟩

/-- A per-device query that always fails, used by concrete witnesses. -/
def noQuery : String → Option String := fun _ => none

/-!
Logger.  `log_message` appends a timestamped line to the log file; when
the write raises `IOError`, its handler prints to the console and then
calls `log_message` itself again on the error text.  The timestamp and
message content are irrelevant to the claims; what is modelled is the
write outcome (`writeOk`) and Python's bounded recursion depth (`fuel`),
exhaustion of which raises `RecursionError`.
-/

/-- Embeds `log_message(message)` from `a.py` under a log file whose
writes uniformly succeed or uniformly fail. -/
def log_message (writeOk : Bool) : Nat → Except PyErr Unit
  | 0 => Except.error PyErr.recursionError
  | fuel + 1 =>
    if writeOk then Except.ok ()
    else log_message writeOk fuel

example : update_sysconf_db (some [⟨"eth0", "10.0.0.9", "", "", "", ""⟩])
    ⟨[ethNode]⟩ =
    Except.ok ([⟨"eth0", "10.0.0.5", "255.255.255.0", "10.0.0.1",
                 "1.1.1.1", "8.8.8.8"⟩], true) := rfl
example : update_sysconf_db (some [⟨"eth0", "10.0.0.5", "", "", "", ""⟩])
    ⟨[ethNode]⟩ =
    Except.ok ([⟨"eth0", "10.0.0.5", "", "", "", ""⟩], false) := rfl

/-!
Helper lemmas.
-/

/-- The mask length produced by the numeral branch is in range. -/
theorem lenFromNumeral_le (s : String) (p : Nat)
    (h : lenFromNumeral s = some p) : p ≤ 32 := by
  unfold lenFromNumeral at h
  cases hs : strToNat? s with
  | none => simp [hs] at h
  | some n =>
    simp only [hs] at h
    split_ifs at h with h32
    exact (Option.some.inj h) ▸ h32

/-- The mask length recognised from a 32-bit value is in range. -/
theorem lenFromIpInt_le (n p : Nat) (h : lenFromIpInt n = some p) : p ≤ 32 := by
  unfold lenFromIpInt at h
  set tz := if n = 0 then 32 else trailingZeroBits 32 n with htz
  simp only [] at h
  split_ifs at h with hc
  have := Option.some.inj h
  omega

/-- Every mask length produced by the netmask-argument parser is in range. -/
theorem make_netmask_le (s : String) (p : Nat)
    (h : make_netmask s = some p) : p ≤ 32 := by
  unfold make_netmask at h
  cases h1 : lenFromNumeral s with
  | some q =>
    simp only [h1] at h
    exact (Option.some.inj h) ▸ lenFromNumeral_le s q h1
  | none =>
    simp only [h1] at h
    cases h2 : ipIntFromString s with
    | none => simp [h2] at h
    | some ip =>
      simp only [h2] at h
      cases h3 : lenFromIpInt ip with
      | some q =>
        simp only [h3] at h
        exact (Option.some.inj h) ▸ lenFromIpInt_le ip q h3
      | none =>
        simp only [h3] at h
        exact lenFromIpInt_le _ p h

/-- The persistence loop never changes the key column of any row. -/
theorem sqlUpdateRow_keys (db : DB) (n : Node) :
    (sqlUpdateRow db n).map DBRow.NetworkType = db.map DBRow.NetworkType := by
  simp only [sqlUpdateRow, List.map_map]
  refine List.map_congr_left ?_
  intro r _
  by_cases h : (r.NetworkType == n.NodeName) = true <;>
    simp [Function.comp, h, updatedRow]

/-- The persistence loop preserves the list of row keys. -/
theorem update_loop_keys (nodes : List Node) : ∀ (db : DB) (b : Bool),
    (update_loop db nodes b).1.map DBRow.NetworkType
      = db.map DBRow.NetworkType := by
  induction nodes with
  | nil => intro db b; rfl
  | cons n rest ih =>
    intro db b
    by_cases h : needs_update db n = true
    · simp only [update_loop, h, if_true]
      rw [ih (sqlUpdateRow db n) true, sqlUpdateRow_keys]
    · simp only [update_loop, h, if_false]
      exact ih db b

/-- Marking a node disconnected does not change its name. -/
@[simp] theorem markDisconnected_NodeName (n : Node) :
    (markDisconnected n).NodeName = n.NodeName := rfl

/-- Membership in the node names of a merged snapshot. -/
theorem mem_prune_names (new old : NetworkData) (m : Node)
    (hm : m ∈ old.NetworkNodes) :
    m.NodeName ∈ (prune_removed_nodes new old).NetworkNodes.map Node.NodeName := by
  simp only [prune_removed_nodes, List.map_append, List.mem_append]
  by_cases hmem : m.NodeName ∈ new.NetworkNodes.map Node.NodeName
  · exact Or.inl hmem
  · right
    simp only [List.map_map, List.mem_map, Function.comp]
    refine ⟨m, ?_, rfl⟩
    refine List.mem_filter.mpr ⟨hm, ?_⟩
    simpa using hmem

/-!
Claim theorems.
-/

/-- C3: merging leaves the nodes of `new` unchanged as a preserved initial
segment, appends a sentinel-valued node for every node of `old` whose
name is absent from `new`, and the merged name set is the union of the
two input name sets. -/
theorem prune_removed_nodes_spec (new old : NetworkData)
    (h1 : (new.NetworkNodes.map Node.NodeName).Nodup)
    (h2 : (old.NetworkNodes.map Node.NodeName).Nodup) :
    (prune_removed_nodes new old).NetworkNodes.take new.NetworkNodes.length
        = new.NetworkNodes ∧
    (∀ m ∈ old.NetworkNodes,
      m.NodeName ∉ new.NetworkNodes.map Node.NodeName →
      ∃ r ∈ (prune_removed_nodes new old).NetworkNodes,
        r.NodeName = m.NodeName ∧ r.IP = "NA" ∧ r.CIDR = "NA" ∧
        r.Netmask = "NA" ∧ r.Gateway = "NA" ∧ r.NameServers = ["NA"]) ∧
    ((prune_removed_nodes new old).NetworkNodes.map Node.NodeName).toFinset
        = (new.NetworkNodes.map Node.NodeName).toFinset ∪
          (old.NetworkNodes.map Node.NodeName).toFinset := by
  refine ⟨?_, ?_, ?_⟩
  · simpa only [prune_removed_nodes] using
      List.take_left new.NetworkNodes _
  · intro m hm hnot
    refine ⟨markDisconnected m, ?_, rfl, rfl, rfl, rfl, rfl, rfl⟩
    simp only [prune_removed_nodes, List.mem_append]
    right
    refine List.mem_map.mpr ⟨m, ?_, rfl⟩
    refine List.mem_filter.mpr ⟨hm, ?_⟩
    simpa using hnot
  · ext a
    simp only [prune_removed_nodes, List.map_append, List.toFinset_append,
      Finset.mem_union, List.mem_toFinset, List.map_map, List.mem_map,
      Function.comp, markDisconnected_NodeName, List.mem_filter]
    constructor
    · rintro (h | ⟨n, ⟨hn, _⟩, rfl⟩)
      · exact Or.inl h
      · exact Or.inr ⟨n, hn, rfl⟩
    · rintro (h | ⟨n, hn, rfl⟩)
      · exact Or.inl h
      · by_cases hmem : n.NodeName ∈ new.NetworkNodes.map Node.NodeName
        · exact Or.inl (List.mem_map.mp hmem)
        · exact Or.inr ⟨n, ⟨hn, by simpa using hmem⟩, rfl⟩

/-- Witness for C3 at a one-node new snapshot and a disjoint old one. -/
theorem prune_removed_nodes_spec_witness :
    (prune_removed_nodes ⟨[ethNode]⟩ ⟨[wlanNode]⟩).NetworkNodes.take
        (⟨[ethNode]⟩ : NetworkData).NetworkNodes.length
        = (⟨[ethNode]⟩ : NetworkData).NetworkNodes ∧
    (∀ m ∈ (⟨[wlanNode]⟩ : NetworkData).NetworkNodes,
      m.NodeName ∉ (⟨[ethNode]⟩ : NetworkData).NetworkNodes.map Node.NodeName →
      ∃ r ∈ (prune_removed_nodes ⟨[ethNode]⟩ ⟨[wlanNode]⟩).NetworkNodes,
        r.NodeName = m.NodeName ∧ r.IP = "NA" ∧ r.CIDR = "NA" ∧
        r.Netmask = "NA" ∧ r.Gateway = "NA" ∧ r.NameServers = ["NA"]) ∧
    ((prune_removed_nodes ⟨[ethNode]⟩ ⟨[wlanNode]⟩).NetworkNodes.map
        Node.NodeName).toFinset
        = ((⟨[ethNode]⟩ : NetworkData).NetworkNodes.map Node.NodeName).toFinset ∪
          ((⟨[wlanNode]⟩ : NetworkData).NetworkNodes.map Node.NodeName).toFinset :=
  prune_removed_nodes_spec ⟨[ethNode]⟩ ⟨[wlanNode]⟩ (by decide) (by decide)

/-- C8: merging is idempotent; a second reconciliation of an already
merged snapshot against the same old snapshot appends nothing. -/
theorem merge_idempotent (new old : NetworkData)
    (h1 : (new.NetworkNodes.map Node.NodeName).Nodup)
    (h2 : (old.NetworkNodes.map Node.NodeName).Nodup) :
    prune_removed_nodes (prune_removed_nodes new old) old
      = prune_removed_nodes new old := by
  have hfilter : old.NetworkNodes.filter (fun n =>
      !(((prune_removed_nodes new old).NetworkNodes.map
          Node.NodeName).contains n.NodeName)) = [] := by
    refine List.filter_eq_nil_iff.mpr ?_
    intro m hm
    have := mem_prune_names new old m hm
    simpa using this
  calc prune_removed_nodes (prune_removed_nodes new old) old
      = ⟨(prune_removed_nodes new old).NetworkNodes ++
          (old.NetworkNodes.filter (fun n =>
            !(((prune_removed_nodes new old).NetworkNodes.map
                Node.NodeName).contains n.NodeName))).map markDisconnected⟩ := rfl
    _ = prune_removed_nodes new old := by rw [hfilter]; simp

/-- Witness for C8 at a one-node new snapshot and a disjoint old one. -/
theorem merge_idempotent_witness :
    prune_removed_nodes (prune_removed_nodes ⟨[ethNode]⟩ ⟨[wlanNode]⟩)
        ⟨[wlanNode]⟩
      = prune_removed_nodes ⟨[ethNode]⟩ ⟨[wlanNode]⟩ :=
  merge_idempotent ⟨[ethNode]⟩ ⟨[wlanNode]⟩ (by decide) (by decide)

/-- Inserting a key that is not yet bound appends the binding. -/
theorem dictInsert_append (d : List (String × Node)) (k : String) (v : Node)
    (h : ∀ p ∈ d, p.1 ≠ k) : dictInsert d k v = d ++ [(k, v)] := by
  unfold dictInsert
  rw [if_neg]
  intro hc
  obtain ⟨p, hp, hpk⟩ := List.any_eq_true.mp hc
  exact h p hp (by simpa using hpk)

/-- With pairwise distinct names, building the Python dict just pairs
each node with its name, in order. -/
theorem nodesByName_fold (nodes : List Node) :
    ∀ d : List (String × Node),
      (d.map Prod.fst ++ nodes.map Node.NodeName).Nodup →
      nodes.foldl (fun d n => dictInsert d n.NodeName n) d
        = d ++ nodes.map (fun n => (n.NodeName, n)) := by
  induction nodes with
  | nil => intro d _; simp
  | cons n rest ih =>
    intro d h
    have hni : ∀ p ∈ d, p.1 ≠ n.NodeName := by
      intro p hp hpk
      have h1 : p.1 ∈ d.map Prod.fst := List.mem_map.mpr ⟨p, hp, rfl⟩
      have hd := (List.nodup_append.mp h).2.2
      exact hd h1 (by simp [hpk])
    rw [List.foldl_cons, dictInsert_append d n.NodeName n hni,
      ih (d ++ [(n.NodeName, n)]) (by simpa [List.append_assoc] using h)]
    simp

/-- With unique node names the dict is the name-keyed pairing of the
node list. -/
theorem nodesByName_eq (nodes : List Node)
    (h : (nodes.map Node.NodeName).Nodup) :
    nodesByName nodes = nodes.map (fun n => (n.NodeName, n)) := by
  simpa using nodesByName_fold nodes [] (by simpa using h)

/-- Looking a name up in the paired dict is `find?` on the node list. -/
theorem dictGet_pairs (b : List Node) (k : String) :
    dictGet (b.map (fun n => (n.NodeName, n))) k
      = b.find? (fun m => m.NodeName == k) := by
  unfold dictGet
  rw [List.find?_map]
  have h1 : ((fun p : String × Node => p.1 == k) ∘ fun n : Node =>
      (n.NodeName, n)) = fun m : Node => m.NodeName == k := rfl
  rw [h1]
  cases hf : b.find? (fun m => m.NodeName == k) <;> simp

/-- Characterisation of the change predicate under unique names: it is
false exactly when every new node keeps its IP in the old snapshot and
no old name has vanished from the new snapshot. -/
theorem hasChanged_false_iff (a b : NetworkData)
    (ha : (a.NetworkNodes.map Node.NodeName).Nodup)
    (hb : (b.NetworkNodes.map Node.NodeName).Nodup) :
    has_network_data_changed a b = false ↔
      ((∀ n ∈ a.NetworkNodes, ∃ m ∈ b.NetworkNodes,
          m.NodeName = n.NodeName ∧ m.IP = n.IP) ∧
       (∀ m ∈ b.NetworkNodes, ∃ n ∈ a.NetworkNodes,
          n.NodeName = m.NodeName)) := by
  unfold has_network_data_changed
  rw [nodesByName_eq _ ha, nodesByName_eq _ hb]
  simp only [dictGet_pairs]
  rw [Bool.or_eq_false_iff]
  constructor
  · rintro ⟨hA, hB⟩
    constructor
    · intro n hn
      have hp : (n.NodeName, n) ∈ a.NetworkNodes.map (fun x => (x.NodeName, x)) :=
        List.mem_map.mpr ⟨n, hn, rfl⟩
      have hcond := List.any_eq_false.mp hA _ hp
      dsimp only at hcond
      cases hf : b.NetworkNodes.find? (fun m => m.NodeName == n.NodeName) with
      | none => rw [hf] at hcond; simp at hcond
      | some e =>
        rw [hf] at hcond
        have he : e ∈ b.NetworkNodes := List.mem_of_find?_eq_some hf
        have hname : e.NodeName = n.NodeName := by
          have := List.find?_some hf
          simpa using this
        have hip : e.IP = n.IP := by simpa using hcond
        exact ⟨e, he, hname, hip⟩
    · intro m hm
      have hp : (m.NodeName, m) ∈ b.NetworkNodes.map (fun x => (x.NodeName, x)) :=
        List.mem_map.mpr ⟨m, hm, rfl⟩
      have hcond := List.any_eq_false.mp hB _ hp
      dsimp only at hcond
      have hany : (a.NetworkNodes.map (fun x => (x.NodeName, x))).any
          (fun q => q.1 == m.NodeName) = true := by simpa using hcond
      obtain ⟨q, hq, hqm⟩ := List.any_eq_true.mp hany
      obtain ⟨n, hn, rfl⟩ := List.mem_map.mp hq
      exact ⟨n, hn, beq_iff_eq.mp hqm⟩
  · rintro ⟨hone, htwo⟩
    constructor
    · refine List.any_eq_false.mpr ?_
      intro p hp
      obtain ⟨n, hn, rfl⟩ := List.mem_map.mp hp
      dsimp only
      obtain ⟨m, hm, hname, hip⟩ := hone n hn
      cases hf : b.NetworkNodes.find? (fun x => x.NodeName == n.NodeName) with
      | none =>
        exfalso
        exact (List.find?_eq_none.mp hf m hm) (by simp [hname])
      | some e =>
        have he : e ∈ b.NetworkNodes := List.mem_of_find?_eq_some hf
        have hename : e.NodeName = n.NodeName := by
          have := List.find?_some hf
          simpa using this
        have hem : e = m :=
          List.inj_on_of_nodup_map hb he hm (hename.trans hname.symm)
        have hipe : e.IP = n.IP := by rw [hem, hip]
        simp [hipe]
    · refine List.any_eq_false.mpr ?_
      intro p hp
      obtain ⟨m, hm, rfl⟩ := List.mem_map.mp hp
      dsimp only
      obtain ⟨n, hn, hnm⟩ := htwo m hm
      have hany : (a.NetworkNodes.map (fun x => (x.NodeName, x))).any
          (fun q => q.1 == m.NodeName) = true :=
        List.any_eq_true.mpr ⟨(n.NodeName, n), List.mem_map.mpr ⟨n, hn, rfl⟩,
          by simp [hnm]⟩
      simp [hany]

/-- C1 (counterexample): the spec's scenario B; every node of the new
snapshot is present in the old one with the same IP, yet the predicate
signals a change because `wlan0` vanished. -/
theorem hasChanged_vanished_cex :
    has_network_data_changed ⟨[ethNode]⟩ ⟨[ethNode, wlanNode]⟩ = true := by
  decide

/-- C1 (corrected): under unique names the predicate is false only when,
additionally, every old name is still present in the new snapshot; the
disappearance of an interface alone does make it return true. -/
theorem hasChanged_vanished_signals (new old : NetworkData)
    (h1 : (new.NetworkNodes.map Node.NodeName).Nodup)
    (h2 : (old.NetworkNodes.map Node.NodeName).Nodup) :
    (has_network_data_changed new old = false ↔
      ((∀ n ∈ new.NetworkNodes, ∃ m ∈ old.NetworkNodes,
          m.NodeName = n.NodeName ∧ m.IP = n.IP) ∧
       (∀ m ∈ old.NetworkNodes, ∃ n ∈ new.NetworkNodes,
          n.NodeName = m.NodeName))) ∧
    (∀ m ∈ old.NetworkNodes,
      m.NodeName ∉ new.NetworkNodes.map Node.NodeName →
      has_network_data_changed new old = true) := by
  refine ⟨hasChanged_false_iff new old h1 h2, ?_⟩
  intro m hm hnot
  cases hc : has_network_data_changed new old with
  | true => rfl
  | false =>
    obtain ⟨_, p2⟩ := (hasChanged_false_iff new old h1 h2).mp hc
    obtain ⟨n, hn, hnm⟩ := p2 m hm
    exact absurd (List.mem_map.mpr ⟨n, hn, hnm⟩) hnot

/-- Witness for C1 (corrected) at one-node snapshots with distinct names. -/
theorem hasChanged_vanished_signals_witness :
    (has_network_data_changed ⟨[ethNode]⟩ ⟨[wlanNode]⟩ = false ↔
      ((∀ n ∈ (⟨[ethNode]⟩ : NetworkData).NetworkNodes,
          ∃ m ∈ (⟨[wlanNode]⟩ : NetworkData).NetworkNodes,
          m.NodeName = n.NodeName ∧ m.IP = n.IP) ∧
       (∀ m ∈ (⟨[wlanNode]⟩ : NetworkData).NetworkNodes,
          ∃ n ∈ (⟨[ethNode]⟩ : NetworkData).NetworkNodes,
          n.NodeName = m.NodeName))) ∧
    (∀ m ∈ (⟨[wlanNode]⟩ : NetworkData).NetworkNodes,
      m.NodeName ∉ (⟨[ethNode]⟩ : NetworkData).NetworkNodes.map Node.NodeName →
      has_network_data_changed ⟨[ethNode]⟩ ⟨[wlanNode]⟩ = true) :=
  hasChanged_vanished_signals ⟨[ethNode]⟩ ⟨[wlanNode]⟩ (by decide) (by decide)

/-- C10: under unique names the change predicate is symmetric in its two
snapshot arguments. -/
theorem hasChanged_symmetric (a b : NetworkData)
    (ha : (a.NetworkNodes.map Node.NodeName).Nodup)
    (hb : (b.NetworkNodes.map Node.NodeName).Nodup) :
    has_network_data_changed a b = has_network_data_changed b a := by
  have key : ∀ (x y : NetworkData),
      (x.NetworkNodes.map Node.NodeName).Nodup →
      (y.NetworkNodes.map Node.NodeName).Nodup →
      has_network_data_changed x y = false →
      has_network_data_changed y x = false := by
    intro x y hx hy hxy
    obtain ⟨p1, p2⟩ := (hasChanged_false_iff x y hx hy).mp hxy
    refine (hasChanged_false_iff y x hy hx).mpr ⟨?_, ?_⟩
    · intro m hm
      obtain ⟨n, hn, hnm⟩ := p2 m hm
      obtain ⟨m2, hm2, hname, hip⟩ := p1 n hn
      have hem : m2 = m :=
        List.inj_on_of_nodup_map hy hm2 hm (hname.trans hnm)
      exact ⟨n, hn, hnm, by rw [← hip, hem]⟩
    · intro n hn
      obtain ⟨m, hm, hname, _⟩ := p1 n hn
      exact ⟨m, hm, hname⟩
  cases hab : has_network_data_changed a b with
  | false => exact (key a b ha hb hab).symm
  | true =>
    cases hba : has_network_data_changed b a with
    | true => rfl
    | false =>
      have hfalse := key b a hb ha hba
      rw [hfalse] at hab
      exact absurd hab (by simp)

/-- Witness for C10 at one-node snapshots with distinct names. -/
theorem hasChanged_symmetric_witness :
    has_network_data_changed ⟨[ethNode]⟩ ⟨[wlanNode]⟩
      = has_network_data_changed ⟨[wlanNode]⟩ ⟨[ethNode]⟩ :=
  hasChanged_symmetric ⟨[ethNode]⟩ ⟨[wlanNode]⟩ (by decide) (by decide)

/-- Congruence for `List.any` under pointwise equal predicates. -/
theorem anyCongr {α : Type} (l : List α) (f g : α → Bool)
    (h : ∀ x ∈ l, f x = g x) : l.any f = l.any g := by
  induction l with
  | nil => rfl
  | cons x t ih =>
    simp only [List.any_cons]
    rw [h x (by simp), ih (fun y hy => h y (by simp [hy]))]

/-- Unfolding of the UPDATE statement on a row-by-row basis. -/
theorem sqlUpdateRow_cons (r : DBRow) (rest : DB) (n : Node) :
    sqlUpdateRow (r :: rest) n
      = (if (r.NetworkType == n.NodeName) = true then updatedRow n r else r)
        :: sqlUpdateRow rest n := rfl

/-- Unfolding of the SELECT query on a row-by-row basis. -/
theorem sqlSelectIP_cons (r : DBRow) (rest : DB) (k : String) :
    sqlSelectIP (r :: rest) k
      = if (r.NetworkType == k) = true then some r.IP
        else sqlSelectIP rest k := by
  unfold sqlSelectIP
  by_cases h : (r.NetworkType == k) = true
  · simp [List.find?_cons_of_pos, h]
  · simp [List.find?_cons_of_neg, h]

/-- An UPDATE keyed on a different name does not change what a SELECT
for this key observes. -/
theorem sqlSelectIP_update_ne (db : DB) (n : Node) (k : String)
    (h : k ≠ n.NodeName) :
    sqlSelectIP (sqlUpdateRow db n) k = sqlSelectIP db k := by
  induction db with
  | nil => rfl
  | cons r rest ih =>
    rw [sqlUpdateRow_cons, sqlSelectIP_cons, sqlSelectIP_cons]
    by_cases hrn : (r.NetworkType == n.NodeName) = true
    · simp only [hrn, if_true]
      have hkey : ((updatedRow n r).NetworkType == k) = (r.NetworkType == k) :=
        rfl
      rw [hkey]
      by_cases hrk : (r.NetworkType == k) = true
      · have hkn : k = n.NodeName := by
          rw [← beq_iff_eq.mp hrk]
          exact beq_iff_eq.mp hrn
        exact absurd hkn h
      · simp [hrk, ih]
    · simp only [hrn, Bool.false_eq_true, if_false]
      by_cases hrk : (r.NetworkType == k) = true
      · simp [hrk]
      · simp [hrk, ih]

/-- The freshness test of a later node is unaffected by the UPDATE of an
earlier node with a different name. -/
theorem needs_update_stable (db : DB) (n m : Node)
    (h : m.NodeName ≠ n.NodeName) :
    needs_update (sqlUpdateRow db n) m = needs_update db m := by
  unfold needs_update
  rw [sqlSelectIP_update_ne db n m.NodeName h]

/-- Unfolding of the expected row outcome over the node list. -/
theorem expectedRow_cons (db : DB) (n : Node) (rest : List Node) (r : DBRow) :
    expectedRow db (n :: rest) r
      = if (n.NodeName == r.NetworkType) = true then
          (if needs_update db n then updatedRow n r else r)
        else expectedRow db rest r := by
  by_cases hk : (n.NodeName == r.NetworkType) = true
  · simp [expectedRow, List.find?_cons_of_pos, hk]
  · simp [expectedRow, List.find?_cons_of_neg, hk]

/-- Rows whose matching node comes later in the list are insensitive to
the UPDATE issued for an earlier, differently named node. -/
theorem expectedRow_update_stable (db : DB) (n : Node) (rest : List Node)
    (r : DBRow) (hn : n.NodeName ∉ rest.map Node.NodeName) :
    expectedRow (sqlUpdateRow db n) rest r = expectedRow db rest r := by
  cases hf : rest.find? (fun m => m.NodeName == r.NetworkType) with
  | none => simp [expectedRow, hf]
  | some m =>
    have hm : m ∈ rest := List.mem_of_find?_eq_some hf
    have hmn : m.NodeName ≠ n.NodeName := fun he =>
      hn (he ▸ List.mem_map.mpr ⟨m, hm, rfl⟩)
    simp [expectedRow, hf, needs_update_stable db n m hmn]

/-- A row keyed by a name that occurs in no node is left alone. -/
theorem expectedRow_of_absent (db : DB) (nodes : List Node) (r : DBRow)
    (h : r.NetworkType ∉ nodes.map Node.NodeName) :
    expectedRow db nodes r = r := by
  have hf : nodes.find? (fun m => m.NodeName == r.NetworkType) = none := by
    refine List.find?_eq_none.mpr ?_
    intro m hm hbeq
    exact h (List.mem_map.mpr ⟨m, hm, (by simpa using hbeq : m.NodeName = r.NetworkType)⟩)
  simp [expectedRow, hf]

/-- Unrolling of the persistence loop against the initial table: with
unique node names, the final table rewrites exactly the rows whose
matching node passes the freshness test against the initial table, and
the update flag is set exactly when some node passes it. -/
theorem update_loop_spec (nodes : List Node) :
    ∀ (db : DB) (b : Bool), (nodes.map Node.NodeName).Nodup →
      update_loop db nodes b
        = (db.map (expectedRow db nodes), b || nodes.any (needs_update db)) := by
  induction nodes with
  | nil =>
    intro db b _
    have h1 : db.map (expectedRow db []) = db :=
      (List.map_congr_left (fun r _ => rfl)).trans (List.map_id' db)
    simp [update_loop, h1]
  | cons n rest ih =>
    intro db b h
    have hn : n.NodeName ∉ rest.map Node.NodeName :=
      (List.nodup_cons.mp (by simpa using h)).1
    have hrest : (rest.map Node.NodeName).Nodup :=
      (List.nodup_cons.mp (by simpa using h)).2
    by_cases hc : needs_update db n = true
    · simp only [update_loop, hc, if_true]
      rw [ih (sqlUpdateRow db n) true hrest]
      have hany : rest.any (needs_update (sqlUpdateRow db n))
          = rest.any (needs_update db) := by
        refine anyCongr rest _ _ ?_
        intro m hm
        refine needs_update_stable db n m ?_
        intro he
        exact hn (he ▸ List.mem_map.mpr ⟨m, hm, rfl⟩)
      rw [hany]
      refine Prod.ext ?_ ?_
      · show (sqlUpdateRow db n).map (expectedRow (sqlUpdateRow db n) rest)
            = db.map (expectedRow db (n :: rest))
        rw [sqlUpdateRow, List.map_map]
        refine List.map_congr_left ?_
        intro r _
        show expectedRow (sqlUpdateRow db n) rest
            (if (r.NetworkType == n.NodeName) = true then updatedRow n r else r)
          = expectedRow db (n :: rest) r
        rw [expectedRow_cons]
        by_cases hk : (r.NetworkType == n.NodeName) = true
        · have hk2 : (n.NodeName == r.NetworkType) = true := by
            have := beq_iff_eq.mp hk
            simp [this]
          simp only [hk, if_true, hk2, hc]
          have hfind : rest.find? (fun m =>
              m.NodeName == (updatedRow n r).NetworkType) = none := by
            refine List.find?_eq_none.mpr ?_
            intro m hm hbeq
            refine hn ?_
            have h1 : m.NodeName = (updatedRow n r).NetworkType := by
              simpa using hbeq
            have h2 : (updatedRow n r).NetworkType = r.NetworkType := rfl
            have h3 : r.NetworkType = n.NodeName := beq_iff_eq.mp hk
            exact List.mem_map.mpr ⟨m, hm, by rw [h1, h2, h3]⟩
          simp [expectedRow, hfind]
        · have hk2 : (n.NodeName == r.NetworkType) = false := by
            refine beq_eq_false_iff_ne.mpr ?_
            intro he
            exact hk (by simp [he.symm])
          simp only [hk, Bool.false_eq_true, if_false, hk2]
          exact expectedRow_update_stable db n rest r hn
      · show (true || rest.any (needs_update db))
            = (b || (n :: rest).any (needs_update db))
        rw [List.any_cons, hc]
        simp
    · have hcf : needs_update db n = false := by simpa using hc
      simp only [update_loop, hcf, Bool.false_eq_true, if_false]
      rw [ih db b hrest]
      refine Prod.ext ?_ ?_
      · show db.map (expectedRow db rest) = db.map (expectedRow db (n :: rest))
        refine List.map_congr_left ?_
        intro r _
        rw [expectedRow_cons]
        by_cases hk : (n.NodeName == r.NetworkType) = true
        · simp only [hk, if_true, hcf, Bool.false_eq_true, if_false]
          refine expectedRow_of_absent db rest r ?_
          intro hmem
          have : r.NetworkType = n.NodeName := (beq_iff_eq.mp hk).symm
          exact hn (this ▸ hmem)
        · simp only [hk, Bool.false_eq_true, if_false]
      · show (b || rest.any (needs_update db))
            = (b || (n :: rest).any (needs_update db))
        rw [List.any_cons, hcf]
        simp

/-- C4: with unique node names, `update_sysconf_db` rewrites all five
value columns of exactly the rows whose matching node has an absent or
different stored IP (sentinels mapped to empty strings, the DNS columns
taken from the first two name servers), commits only in that case, and
returns true exactly when some node passed the freshness test. -/
theorem update_sysconf_db_spec (db : DB) (nd : NetworkData)
    (h : (nd.NetworkNodes.map Node.NodeName).Nodup) :
    update_sysconf_db (some db) nd
      = Except.ok (db.map (expectedRow db nd.NetworkNodes),
          nd.NetworkNodes.any (needs_update db)) := by
  simp only [update_sysconf_db]
  rw [update_loop_spec nd.NetworkNodes db false h]
  simp only [Bool.false_or]
  cases ha : nd.NetworkNodes.any (needs_update db) with
  | true => simp
  | false =>
    simp only [Bool.false_eq_true, if_false]
    have hmap : db.map (expectedRow db nd.NetworkNodes) = db := by
      have hpt : db.map (expectedRow db nd.NetworkNodes)
          = db.map (fun r => r) := by
        refine List.map_congr_left ?_
        intro r _
        cases hf : nd.NetworkNodes.find? (fun n => n.NodeName == r.NetworkType) with
        | none => simp [expectedRow, hf]
        | some n =>
          have hnmem : n ∈ nd.NetworkNodes := List.mem_of_find?_eq_some hf
          have hnu : needs_update db n = false := by
            have := List.any_eq_false.mp ha n hnmem
            simpa using this
          simp [expectedRow, hf, hnu]
      rw [hpt, List.map_id']
    rw [hmap]

/-- Witness for C4 at a one-row table holding a stale IP for `eth0`. -/
theorem update_sysconf_db_spec_witness :
    update_sysconf_db (some [staleRow]) ⟨[ethNode]⟩
      = Except.ok (([staleRow] : DB).map (expectedRow [staleRow] [ethNode]),
          [ethNode].any (needs_update [staleRow])) :=
  update_sysconf_db_spec [staleRow] ⟨[ethNode]⟩ (by decide)

/-- C7: for every snapshot and store state, `update_sysconf_db` leaves the
set of row keys of the NetworkDetails table unchanged: it only issues
SELECT and UPDATE, never inserting or deleting a row. -/
theorem update_sysconf_db_frame (db : DB) (nd : NetworkData) :
    ∃ db2 upd, update_sysconf_db (some db) nd = Except.ok (db2, upd) ∧
      db2.map DBRow.NetworkType = db.map DBRow.NetworkType := by
  refine ⟨_, _, rfl, ?_⟩
  cases hb : (update_loop db nd.NetworkNodes false).2 with
  | false => simp [hb]
  | true =>
    have hk := update_loop_keys nd.NetworkNodes db false
    simp [hb, hk]

/-- C9: whenever the interface-listing command fails (CalledProcessError)
or produces empty output, `get_network_info` returns the empty snapshot
rather than raising an error. -/
theorem get_network_info_empty_on_no_listing (listing : Option String)
    (q : String → Option String) (h : run_command listing = "") :
    get_network_info listing q = Except.ok ⟨[]⟩ := by
  simp [get_network_info, h]

/-- Witness for C9 at a failed listing command and failing detail query. -/
theorem get_network_info_empty_on_no_listing_witness :
    get_network_info none noQuery = Except.ok ⟨[]⟩ :=
  get_network_info_empty_on_no_listing none noQuery rfl

/-- C2 (code bug): with a persistently unwritable log file, `log_message`
re-raises from its own IOError handler until the recursion budget is
exhausted, so a `RecursionError` escapes; and when `sqlite3.connect`
fails, the `finally` block of `update_sysconf_db` reads the unassigned
local `conn` and an `UnboundLocalError` escapes.  Both contradict the
spec's claim that these failures are caught. -/
theorem log_and_db_open_failures_escape :
    (∀ fuel, log_message false fuel = Except.error PyErr.recursionError) ∧
    (∀ nd, update_sysconf_db none nd = Except.error PyErr.unboundLocalError) := by
  constructor
  · intro fuel
    induction fuel with
    | zero => rfl
    | succ k ih => simpa [log_message] using ih
  · intro nd; rfl

/-- C5: for every prefix length 0..32 (stringified, as the f-string in
the source does), `cidr_to_netmask` renders the 32-bit mask whose top
`p` bits are one as four base-10 octets joined by dots, and agrees with
the independent `CIDRConverter.cidr_to_subnet_mask` implementation. -/
theorem cidr_to_netmask_in_range (p : Nat) (hp : p ≤ 32) :
    cidr_to_netmask (Nat.repr p) = ipv4Repr (2 ^ 32 - 2 ^ (32 - p)) ∧
    cidr_to_subnet_mask p = Except.ok (cidr_to_netmask (Nat.repr p)) := by
  interval_cases p <;> exact ⟨rfl, rfl⟩

/-- Witness for C5 at prefix length 24. -/
theorem cidr_to_netmask_in_range_witness :
    cidr_to_netmask (Nat.repr 24) = ipv4Repr (2 ^ 32 - 2 ^ (32 - 24)) ∧
    cidr_to_subnet_mask 24 = Except.ok (cidr_to_netmask (Nat.repr 24)) :=
  cidr_to_netmask_in_range 24 (by decide)

/-- C6 (counterexample): "255.255.255.0" is not a numeral in 0..32, yet
`cidr_to_netmask` returns it unchanged instead of the empty string,
because the ipaddress module also accepts dotted-quad netmask strings. -/
theorem cidr_to_netmask_dotted_quad_cex :
    strToNat? "255.255.255.0" = none ∧
    cidr_to_netmask "255.255.255.0" = "255.255.255.0" ∧
    cidr_to_netmask "255.255.255.0" ≠ "" :=
  ⟨by decide, by decide, by decide⟩

/-- Totality of `cidr_to_netmask`: the result is always either the
empty-string sentinel or the rendering of a valid netmask. -/
theorem cidr_to_netmask_sentinel_or_mask (s : String) :
    cidr_to_netmask s = "" ∨
    ∃ p, p ≤ 32 ∧ cidr_to_netmask s = ipv4Repr (maskOfLen p) := by
  unfold cidr_to_netmask
  by_cases h : (splitOnChar '/' ("0.0.0.0/" ++ s)).length ≠ 2
  · left; rw [if_pos h]
  · cases hm : make_netmask s with
    | none => left; rw [if_neg h]
    | some p =>
      right
      exact ⟨p, make_netmask_le s p hm, by rw [if_neg h]⟩

/-- C6 (amended): every input that is neither a numeral in the range
0..32 (the first hypothesis: any parsed numeral value is out of range,
vacuously true for non-numeral strings) nor a dotted-quad netmask or
hostmask string (the second hypothesis: any parsed dotted-quad value is
recognised neither as a netmask nor, complemented, as a hostmask)
yields the empty-string sentinel; and on every input the function is
total (never raises), returning either the sentinel or the rendering of
a valid top-p-bits netmask. -/
theorem cidr_to_netmask_unparseable_sentinel (s : String) :
    ((strToNat? s).all (fun n => decide (32 < n)) = true →
     (ipIntFromString s).all (fun ip =>
        (lenFromIpInt ip).isNone &&
        (lenFromIpInt (ip ^^^ (2 ^ 32 - 1))).isNone) = true →
     cidr_to_netmask s = "") ∧
    (cidr_to_netmask s = "" ∨
     ∃ p, p ≤ 32 ∧ cidr_to_netmask s = ipv4Repr (maskOfLen p)) := by
  constructor
  · intro h1 h2
    unfold cidr_to_netmask
    by_cases hsplit : (splitOnChar '/' ("0.0.0.0/" ++ s)).length ≠ 2
    · rw [if_pos hsplit]
    · rw [if_neg hsplit]
      have hnum : lenFromNumeral s = none := by
        unfold lenFromNumeral
        cases hn : strToNat? s with
        | none => rfl
        | some n =>
          have h32 : 32 < n := by
            rw [hn] at h1
            simpa using h1
          simp only []
          rw [if_neg (by omega)]
      have hmm : make_netmask s = none := by
        unfold make_netmask
        simp only [hnum]
        cases hip : ipIntFromString s with
        | none => simp [hip]
        | some ip =>
          rw [hip] at h2
          have hx : ((lenFromIpInt ip).isNone &&
              (lenFromIpInt (ip ^^^ (2 ^ 32 - 1))).isNone) = true := by
            simpa using h2
          have ha : lenFromIpInt ip = none :=
            Option.isNone_iff_eq_none.mp ((Bool.and_eq_true _ _).mp hx).1
          have hb : lenFromIpInt (ip ^^^ (2 ^ 32 - 1)) = none :=
            Option.isNone_iff_eq_none.mp ((Bool.and_eq_true _ _).mp hx).2
          have hb2 : lenFromIpInt (ip ^^^ 4294967295) = none := by
            have h32 : (2 ^ 32 - 1 : Nat) = 4294967295 := by norm_num
            rw [h32] at hb
            exact hb
          simp [hip, ha, hb2]
      simp [hmm]
  · exact cidr_to_netmask_sentinel_or_mask s

/-- Witness for C6 (amended) at the non-numeral, non-dotted input "abc". -/
theorem cidr_to_netmask_unparseable_sentinel_witness :
    cidr_to_netmask "abc" = "" ∧
    (cidr_to_netmask "abc" = "" ∨
     ∃ p, p ≤ 32 ∧ cidr_to_netmask "abc" = ipv4Repr (maskOfLen p)) :=
  ⟨(cidr_to_netmask_unparseable_sentinel "abc").1 (by decide) (by decide),
   (cidr_to_netmask_unparseable_sentinel "abc").2⟩

end Netmancer
